import Mathlib

/-!
# ldns example programs: `ldns-read-zone` and `ldns-key2ds`

A shallow embedding of the two example programs of the ldns library
(`examples/ldns-read-zone.c`, `examples/ldns-key2ds.c`) together with the
properties of their record filters, option parsing, serial rewriting and
DS file naming.

C strings are lists of characters (the bytes before the terminating NUL).
Library calls whose code is not part of the sources are either parameters of
the embedding or small models whose doc comment says so.
-/

set_option autoImplicit false

namespace ReadZone

/-! ## Records and zones -/

/-- Numeric value of `LDNS_RR_TYPE_A` in the enum `ldns_rr_type` (IANA value). -/
def LDNS_RR_TYPE_A : Nat := 1
/-- Numeric value of `LDNS_RR_TYPE_SOA`. -/
def LDNS_RR_TYPE_SOA : Nat := 6
/-- Numeric value of `LDNS_RR_TYPE_MX`. -/
def LDNS_RR_TYPE_MX : Nat := 15
/-- Numeric value of `LDNS_RR_TYPE_RRSIG`. -/
def LDNS_RR_TYPE_RRSIG : Nat := 46
/-- Numeric value of `LDNS_RR_TYPE_NSEC`. -/
def LDNS_RR_TYPE_NSEC : Nat := 47
/-- Numeric value of `LDNS_RR_TYPE_NSEC3` (written NSEC3 in the sources). -/
def LDNS_RR_TYPE_NSEC3 : Nat := 50
/-- Numeric value of `LDNS_RR_TYPE_NSEC3PARAM` (written NSEC3PARAM in the sources). -/
def LDNS_RR_TYPE_NSEC3PARAM : Nat := 51

/-- A resource record as far as the program looks at it: its type (an
`ldns_rr_type` enum value, any number for types without a name), the 32-bit
integer rdata field at position 2 (the serial when the record is a SOA), and
a number standing for everything else (owner, class, ttl, other rdata). -/
structure ldns_rr where
  rr_type : Nat
  serial : Nat
  rest : Nat
  deriving DecidableEq, Repr

/-- The accessor `ldns_rr_get_type`. -/
def ldns_rr_get_type (rr : ldns_rr) : Nat := rr.rr_type

/-- A zone: the SOA record (kept apart, possibly absent) and the list of the
other records, `ldns_zone_soa` and `ldns_zone_rrs`. -/
structure ldns_zone where
  soa : Option ldns_rr
  rrs : List ldns_rr
  deriving DecidableEq, Repr

/-- Modelled from the spec: `ldns_rr_list_pop_rr` of the library (its code is
not among the sources) removes the last record of the list and returns it;
on an empty list it returns NULL and leaves the list as it is. The result is
the popped record together with the remaining list. -/
def ldns_rr_list_pop_rr (l : List ldns_rr) : Option (ldns_rr × List ldns_rr) :=
  match l.getLast? with
  | none => none
  | some r => some (r, l.dropLast)

/-- Modelled from the spec: `ldns_rr_list_push_rr` of the library (its code is
not among the sources) puts the record at the end of the list. -/
def ldns_rr_list_push_rr (l : List ldns_rr) (rr : ldns_rr) : List ldns_rr :=
  l ++ [rr]

/-- The loop of the strip pass (lines 220-231): pop records off the zone list
until it is empty; an RRSIG, NSEC, NSEC3 or NSEC3PARAM record is freed, any
other record is pushed on `stripped_list`. Returns the zone list as the loop
leaves it and the stripped list. -/
def strip_loop (zone_rrs stripped_list : List ldns_rr) : List ldns_rr × List ldns_rr :=
  match h : ldns_rr_list_pop_rr zone_rrs with
  | none => (zone_rrs, stripped_list)
  | some (cur_rr, rest) =>
    let cur_rr_type := ldns_rr_get_type cur_rr
    if cur_rr_type = LDNS_RR_TYPE_RRSIG ∨
       cur_rr_type = LDNS_RR_TYPE_NSEC ∨
       cur_rr_type = LDNS_RR_TYPE_NSEC3 ∨
       cur_rr_type = LDNS_RR_TYPE_NSEC3PARAM
    then strip_loop rest stripped_list
    else strip_loop rest (ldns_rr_list_push_rr stripped_list cur_rr)
termination_by zone_rrs.length
decreasing_by
  all_goals
    unfold ldns_rr_list_pop_rr at h
    cases hg : zone_rrs.getLast? with
    | none => simp [hg] at h
    | some x =>
      simp only [hg, Option.some.injEq, Prod.mk.injEq] at h
      have hne : zone_rrs ≠ [] := by
        intro hnil
        simp [hnil] at hg
      rw [← h.2, List.length_dropLast]
      exact Nat.sub_lt (List.length_pos.mpr hne) Nat.one_pos

/-- The loop of the only-dnssec pass (lines 237-248): as `strip_loop`, with
the two branches exchanged. -/
def only_dnssec_loop (zone_rrs stripped_list : List ldns_rr) : List ldns_rr × List ldns_rr :=
  match h : ldns_rr_list_pop_rr zone_rrs with
  | none => (zone_rrs, stripped_list)
  | some (cur_rr, rest) =>
    let cur_rr_type := ldns_rr_get_type cur_rr
    if cur_rr_type = LDNS_RR_TYPE_RRSIG ∨
       cur_rr_type = LDNS_RR_TYPE_NSEC ∨
       cur_rr_type = LDNS_RR_TYPE_NSEC3 ∨
       cur_rr_type = LDNS_RR_TYPE_NSEC3PARAM
    then only_dnssec_loop rest (ldns_rr_list_push_rr stripped_list cur_rr)
    else only_dnssec_loop rest stripped_list
termination_by zone_rrs.length
decreasing_by
  all_goals
    unfold ldns_rr_list_pop_rr at h
    cases hg : zone_rrs.getLast? with
    | none => simp [hg] at h
    | some x =>
      simp only [hg, Option.some.injEq, Prod.mk.injEq] at h
      have hne : zone_rrs ≠ [] := by
        intro hnil
        simp [hnil] at hg
      rw [← h.2, List.length_dropLast]
      exact Nat.sub_lt (List.length_pos.mpr hne) Nat.one_pos

/-- The strip pass (lines 218-234 with `strip` true): a new list is filled by
the loop and becomes the record list of the zone. -/
def strip_pass (z : ldns_zone) : ldns_zone :=
  let stripped_list : List ldns_rr := []
  { z with rrs := (strip_loop z.rrs stripped_list).2 }

/-- The only-dnssec pass (lines 235-251 with `only_dnssec` true). -/
def only_dnssec_pass (z : ldns_zone) : ldns_zone :=
  let stripped_list : List ldns_rr := []
  { z with rrs := (only_dnssec_loop z.rrs stripped_list).2 }

/-- Lines 218-251: the two passes, each under its flag, strip first. -/
def filter_passes (strip only_dnssec : Bool) (z : ldns_zone) : ldns_zone :=
  let z1 := if strip then strip_pass z else z
  if only_dnssec then only_dnssec_pass z1 else z1

/-- The classification both passes test inline: the type is one of RRSIG,
NSEC, NSEC3, NSEC3PARAM. -/
def is_dnssec_type (t : Nat) : Bool :=
  t == LDNS_RR_TYPE_RRSIG || t == LDNS_RR_TYPE_NSEC ||
  t == LDNS_RR_TYPE_NSEC3 || t == LDNS_RR_TYPE_NSEC3PARAM

/-! ## C library functions used on the argument of `-S` -/

/-- The test `isspace` of the C locale: space and the controls 9 to 13. -/
def isspace (c : Char) : Bool := c.toNat == 32 || (9 ≤ c.toNat && c.toNat ≤ 13)

/-- The test `isdigit`. -/
def isdigit (c : Char) : Bool := 48 ≤ c.toNat && c.toNat ≤ 57

/-- The function `tolower` of the C locale, as a character code. -/
def tolower (c : Char) : Nat :=
  if 65 ≤ c.toNat ∧ c.toNat ≤ 90 then c.toNat + 32 else c.toNat

/-- The value of a 32-bit `int` holding the integer `n` after wrap-around. -/
def to_int32 (n : Int) : Int := (n + 2147483648) % 4294967296 - 2147483648

/-- The function `atoi`: skip white space, read an optional sign and the
decimal digits that follow, stop at the first other character. The result is
an `int`; a value that does not fit is wrapped (the C standard leaves that
case open). -/
def atoi (s : List Char) : Int :=
  let s1 := s.dropWhile isspace
  let neg : Bool := match s1 with
    | c :: _ => c == '-'
    | [] => false
  let s2 := match s1 with
    | c :: t => if c == '-' || c == '+' then t else s1
    | [] => s1
  let n : Nat := (s2.takeWhile isdigit).foldl (fun acc c => acc * 10 + (c.toNat - 48)) 0
  to_int32 (if neg then - (n : Int) else (n : Int))

/-- The first call `strtok(str, delim)` on a string: skip the leading
delimiters; if nothing is left return NULL and leave the string alone;
otherwise the token runs up to the next delimiter, which is overwritten by a
NUL, so that the string seen from its start is cut there. Returns the token
(none for NULL) and the string as it reads afterwards. -/
def strtok (str delim : List Char) : Option (List Char) × List Char :=
  let lead := str.takeWhile (fun c => delim.contains c)
  let rest := str.dropWhile (fun c => delim.contains c)
  match rest with
  | [] => (none, str)
  | _ :: _ =>
    let token := rest.takeWhile (fun c => !delim.contains c)
    (some token, lead ++ token)

/-- The function `strcasecmp`: compare two strings ignoring case; zero iff
they agree, else the difference of the first two lowered characters that
differ (the NUL at the end counting as 0). -/
def strcasecmp : List Char → List Char → Int
  | [], [] => 0
  | [], b :: _ => - (tolower b : Int)
  | a :: _, [] => (tolower a : Int)
  | a :: s, b :: t =>
    if tolower a = tolower b then strcasecmp s t
    else (tolower a : Int) - (tolower b : Int)

/-! ## Serial number strategies -/

/-- The four functions an `ldns_soa_serial_increment_func_t` can point to. -/
inductive soa_serial_func where
  | increment_by
  | identity
  | datecounter
  | unixtime
  deriving DecidableEq, Repr

/-- The current time as the strategies see it: the Unix time, the local date
as the number YYYYMMDD and the two-digit daily counter. -/
structure clock where
  unixtime : Nat
  yyyymmdd : Nat
  counter : Nat
  deriving DecidableEq, Repr

/-- Modelled from the spec: the signed 32-bit difference `a - b` that DNS
serial arithmetic compares by (the library code is not among the sources). -/
def serial_signed_diff (a b : Nat) : Int := to_int32 ((a : Int) - (b : Int))

/-- Modelled from the spec: `serial_arithmetic_gt(a, b)`, the serial `a` is
ahead of `b`: the signed difference is positive. -/
def serial_arithmetic_gt (a b : Nat) : Bool := decide (0 < serial_signed_diff a b)

/-- Modelled from the spec: the guard the four strategies of section 4.2
share (the library code is not among the sources). The value asked for is
kept when it is ahead of the old serial under serial arithmetic; otherwise
old + 1 modulo 2^32 is used. The guard is the one the datecounter row spells
out ("would not exceed old"); the other rows refer to it as the decrease
guard, and the contract of the section has the result never equal to the old
value, so a request equal to old falls under it as well. -/
def serial_guard (old requested : Nat) : Nat :=
  if serial_arithmetic_gt requested old then requested else (old + 1) % 4294967296

/-- Modelled from the spec: the offset strategy `ldns_soa_serial_increment_by`
(library code not among the sources): new = old + N modulo 2^32, under the
guard. -/
def ldns_soa_serial_increment_by (old : Nat) (N : Int) : Nat :=
  serial_guard old (((old : Int) + N) % 4294967296).toNat

/-- Modelled from the spec: the explicit-value strategy
`ldns_soa_serial_identity` (library code not among the sources): new = V,
under the guard. -/
def ldns_soa_serial_identity (old : Nat) (V : Int) : Nat :=
  serial_guard old (V % 4294967296).toNat

/-- Modelled from the spec: the strategy `ldns_soa_serial_datecounter`
(library code not among the sources): new = YYYYMMDD * 100 + two-digit daily
counter; if that does not exceed old under serial arithmetic, old + 1. -/
def ldns_soa_serial_datecounter (clk : clock) (old : Nat) : Nat :=
  serial_guard old ((clk.yyyymmdd * 100 + clk.counter % 100) % 4294967296)

/-- Modelled from the spec: the strategy `ldns_soa_serial_unixtime` (library
code not among the sources): new = the Unix time cut to 32 bits, under the
guard. -/
def ldns_soa_serial_unixtime (clk : clock) (old : Nat) : Nat :=
  serial_guard old (clk.unixtime % 4294967296)

/-- Call of the selected strategy on the old serial and the `int` argument. -/
def apply_serial_func (f : soa_serial_func) (clk : clock) (old : Nat) (data : Int) : Nat :=
  match f with
  | .increment_by => ldns_soa_serial_increment_by old data
  | .identity => ldns_soa_serial_identity old data
  | .datecounter => ldns_soa_serial_datecounter clk old
  | .unixtime => ldns_soa_serial_unixtime clk old

/-- Modelled from the spec: `ldns_rr_soa_increment_func_int` (library code not
among the sources) replaces the serial of the SOA by the value the strategy
computes from the old serial. -/
def ldns_rr_soa_increment_func_int (clk : clock) (soa : ldns_rr) (f : soa_serial_func)
    (data : Int) : ldns_rr :=
  { soa with serial := apply_serial_func f clk soa.serial data }

/-! ## The program `ldns-read-zone` -/

/-- The exit statuses of the program. -/
inductive exit_status where
  | EXIT_SUCCESS
  | EXIT_FAILURE
  deriving DecidableEq, Repr

/-- What the program writes to stderr. -/
inductive diag where
  /-- The line "Warning: stripping both DNSSEC and non-DNSSEC records.
  Output will be sparse." -/
  | warning_strip_both
  /-- The line "Cannot set rr type ... in output format to print as unknown
  type: ...", for the argument of `-u`. -/
  | cannot_set_type (optarg : List Char)
  /-- The line "Cannot set rr type ... in output format to not print as
  unknown type: ...", for the argument of `-U`. -/
  | cannot_clear_type (optarg : List Char)
  /-- The line "-S expects a number optionally preceded by a + or - sign to
  indicate an offset, or the text YYYYMMDDxx or unixtime". -/
  | S_expects_number
  /-- The line "Unable to open ...: ...". -/
  | unable_to_open
  /-- The line "... at ...": error string of the status and line number. -/
  | zone_error (status : Nat) (line_nr : Nat)
  deriving DecidableEq, Repr

/-- What the program writes to stdout. -/
inductive printed where
  /-- The text of `print_usage`. -/
  | usage
  /-- The line "read zone version ... (ldns version ...)". -/
  | version
  /-- The record printed by `ldns_rr_print_fmt`. -/
  | rr (r : ldns_rr)
  /-- The records printed by `ldns_rr_list_print_fmt`. -/
  | rr_list (l : List ldns_rr)
  deriving DecidableEq, Repr

/-- The calls of `ldns_rr2canonical` and `ldns_zone_sort`, in the order the
program makes them. -/
inductive lib_call where
  | rr2canonical (r : Option ldns_rr)
  | zone_sort
  deriving DecidableEq, Repr

/-- The output format: the flag bits the options set and the calls of
`ldns_output_format_set_type` (true) and `ldns_output_format_clear_type`
(false) that succeeded, latest first. -/
structure ldns_output_format where
  LDNS_COMMENT_BUBBLEBABBLE : Bool
  LDNS_COMMENT_FLAGS : Bool
  LDNS_FMT_ZEROIZE_RRSIGS : Bool
  LDNS_FMT_PAD_SOA_SERIAL : Bool
  type_marks : List (Bool × List Char)
  deriving DecidableEq, Repr

/-- The library functions whose results the program depends on without
their code being part of it: the status of setting and clearing a type mark
(0 is `LDNS_STATUS_OK`), canonicalisation of a record, sorting of a zone. -/
structure library where
  ldns_output_format_set_type : ldns_output_format → List Char → Nat
  ldns_output_format_clear_type : ldns_output_format → List Char → Nat
  ldns_rr2canonical : ldns_rr → ldns_rr
  ldns_zone_sort : ldns_zone → ldns_zone

/-- The local variables of `main` that the option loop sets, with what has
been written to stderr so far. -/
structure main_state where
  fmt : ldns_output_format
  canonicalize : Bool
  sort : Bool
  strip : Bool
  only_dnssec : Bool
  print_soa : Bool
  soa_serial_increment_func : Option soa_serial_func
  soa_serial_increment_func_data : Int
  err : List diag
  deriving DecidableEq, Repr

/-- The initial values of the variables (lines 72-86). -/
def main_init : main_state :=
  { fmt := { LDNS_COMMENT_BUBBLEBABBLE := false, LDNS_COMMENT_FLAGS := false,
             LDNS_FMT_ZEROIZE_RRSIGS := false, LDNS_FMT_PAD_SOA_SERIAL := false,
             type_marks := [] },
    canonicalize := false, sort := false, strip := false, only_dnssec := false,
    print_soa := true, soa_serial_increment_func := none,
    soa_serial_increment_func_data := 0, err := [] }

/-- A finished run: exit status, stderr, stdout and the library calls made. -/
structure run_result where
  status : exit_status
  err : List diag
  out : List printed
  calls : List lib_call
  deriving DecidableEq, Repr

/-- The branches of `case 'S'` after `strip = true` (lines 164-187): the
strategy selected and the new value of the `int` argument (none when the
branch leaves it as it was), or none when the argument is refused. -/
def case_S_select (optarg : List Char) : Option (soa_serial_func × Option Int) :=
  if optarg.head? = some '+' ∨ optarg.head? = some '-' then
    some (.increment_by, some (atoi optarg))
  else
    let tok := strtok optarg "0123456789".toList
    let optarg := tok.2
    if tok.1 = none then
      some (.identity, some (atoi optarg))
    else if strcasecmp optarg "YYYYMMDDxx".toList = 0 then
      some (.datecounter, none)
    else if strcasecmp optarg "unixtime".toList = 0 then
      some (.unixtime, none)
    else
      none

/-- The end of a run through `exit` inside the option loop. -/
def exit_with (status : exit_status) (err : List diag) (out : List printed) : run_result :=
  { status := status, err := err, out := out, calls := [] }

/-- The case 'b' (lines 90-94): two flag bits of the format. -/
def case_b (st : main_state) : main_state :=
  { st with fmt := { st.fmt with LDNS_COMMENT_BUBBLEBABBLE := true, LDNS_COMMENT_FLAGS := true } }

/-- The case '0' (lines 95-97). -/
def case_0 (st : main_state) : main_state :=
  { st with fmt := { st.fmt with LDNS_FMT_ZEROIZE_RRSIGS := true } }

/-- The case 'p' (lines 113-115). -/
def case_p (st : main_state) : main_state :=
  { st with fmt := { st.fmt with LDNS_FMT_PAD_SOA_SERIAL := true } }

/-- The case 'c' (lines 98-100). -/
def case_c (st : main_state) : main_state := { st with canonicalize := true }

/-- The case 'd' (lines 101-106): set `only_dnssec`, warn if `strip` is set. -/
def case_d (st : main_state) : main_state :=
  let st := { st with only_dnssec := true }
  if st.strip then { st with err := st.err ++ [diag.warning_strip_both] } else st

/-- The case 'n' (lines 110-112). -/
def case_n (st : main_state) : main_state := { st with print_soa := false }

/-- The case 's' (lines 116-121): set `strip`, warn if `only_dnssec` is set. -/
def case_s (st : main_state) : main_state :=
  let st := { st with strip := true }
  if st.only_dnssec then { st with err := st.err ++ [diag.warning_strip_both] } else st

/-- The case 'u' (lines 122-137). -/
def case_u (L : library) (st : main_state) (optarg : List Char) : Except run_result main_state :=
  if L.ldns_output_format_set_type st.fmt optarg ≠ 0 then
    .error (exit_with .EXIT_FAILURE (st.err ++ [diag.cannot_set_type optarg]) [])
  else
    .ok { st with fmt := { st.fmt with type_marks := (true, optarg) :: st.fmt.type_marks } }

/-- The case 'U' (lines 138-153). -/
def case_U (L : library) (st : main_state) (optarg : List Char) : Except run_result main_state :=
  if L.ldns_output_format_clear_type st.fmt optarg ≠ 0 then
    .error (exit_with .EXIT_FAILURE (st.err ++ [diag.cannot_clear_type optarg]) [])
  else
    .ok { st with fmt := { st.fmt with type_marks := (false, optarg) :: st.fmt.type_marks } }

/-- The case 'z' (lines 158-161). -/
def case_z (st : main_state) : main_state := { st with canonicalize := true, sort := true }

/-- The case 'S' (lines 162-188): set `strip`, then select the strategy from
the argument or exit with the message about what `-S` expects. -/
def case_S (st : main_state) (optarg : List Char) : Except run_result main_state :=
  let st := { st with strip := true }
  match case_S_select optarg with
  | some (f, some data) =>
    .ok { st with soa_serial_increment_func := some f,
                  soa_serial_increment_func_data := data }
  | some (f, none) =>
    .ok { st with soa_serial_increment_func := some f }
  | none =>
    .error (exit_with .EXIT_FAILURE (st.err ++ [diag.S_expects_number]) [])

/-- One round of the option loop (lines 89-189): the switch on the character
`c` that `getopt` returned, with `optarg` the argument of the option. A
character without a case (such as the question mark `getopt` returns for an
unknown option) changes nothing. The error side is the run ended by `exit`
(in the cases 'h' and 'v', and on the failures of 'u', 'U' and 'S'). -/
def option_case (L : library) (st : main_state) (c : Char) (optarg : List Char) :
    Except run_result main_state :=
  if c = 'b' then .ok (case_b st)
  else if c = '0' then .ok (case_0 st)
  else if c = 'c' then .ok (case_c st)
  else if c = 'd' then .ok (case_d st)
  else if c = 'h' then .error (exit_with .EXIT_SUCCESS st.err [printed.usage])
  else if c = 'n' then .ok (case_n st)
  else if c = 'p' then .ok (case_p st)
  else if c = 's' then .ok (case_s st)
  else if c = 'u' then case_u L st optarg
  else if c = 'U' then case_U L st optarg
  else if c = 'v' then .error (exit_with .EXIT_SUCCESS st.err [printed.version])
  else if c = 'z' then .ok (case_z st)
  else if c = 'S' then case_S st optarg
  else .ok st

/-- The option loop (line 88): one round per result of `getopt`, given as
the list of the characters it returns with their arguments, until the list
is through or a round exits. -/
def option_loop (L : library) (st : main_state) :
    List (Char × List Char) → Except run_result main_state
  | [] => .ok st
  | (c, optarg) :: more =>
    match option_case L st c optarg with
    | .error r => .error r
    | .ok st1 => option_loop L st1 more

/-- The option parsing of `main` from the initial values. -/
def parse_options (L : library) (opts : List (Char × List Char)) :
    Except run_result main_state :=
  option_loop L main_init opts

/-- Lines 253-258: under `canonicalize`, the SOA and then every record of the
zone list go through `ldns_rr2canonical`. Returns the zone and the calls. -/
def canonicalize_stage (L : library) (canonicalize : Bool) (z : ldns_zone) :
    ldns_zone × List lib_call :=
  if canonicalize then
    ({ soa := z.soa.map L.ldns_rr2canonical, rrs := z.rrs.map L.ldns_rr2canonical },
     lib_call.rr2canonical z.soa :: z.rrs.map (fun r => lib_call.rr2canonical (some r)))
  else (z, [])

/-- Lines 259-261: under `sort`, `ldns_zone_sort` is called on the zone. -/
def sort_stage (L : library) (sort : Bool) (z : ldns_zone) : ldns_zone × List lib_call :=
  if sort then (L.ldns_zone_sort z, [lib_call.zone_sort]) else (z, [])

/-- Lines 263-272: when the SOA is to be printed and there is one, its serial
is rewritten if a strategy was selected, and it is printed. Returns the zone
and what was printed. -/
def soa_stage (clk : clock) (st : main_state) (z : ldns_zone) : ldns_zone × List printed :=
  match st.print_soa, z.soa with
  | true, some soa =>
    let soa1 := match st.soa_serial_increment_func with
      | some f => ldns_rr_soa_increment_func_int clk soa f st.soa_serial_increment_func_data
      | none => soa
    ({ z with soa := some soa1 }, [printed.rr soa1])
  | _, _ => (z, [])

/-- Lines 218-277: the zone that was read goes through the filter passes,
canonicalisation, sorting and the serial rewrite, and is printed. -/
def process_zone (L : library) (clk : clock) (st : main_state) (z : ldns_zone) : run_result :=
  let z1 := filter_passes st.strip st.only_dnssec z
  let c := canonicalize_stage L st.canonicalize z1
  let s := sort_stage L st.sort c.1
  let p := soa_stage clk st s.1
  { status := .EXIT_SUCCESS, err := st.err,
    out := p.2 ++ [printed.rr_list p.1.rrs],
    calls := c.2 ++ s.2 }

/-- The function `main` of `ldns-read-zone`. Its inputs are the results of
`getopt`, whether the zone file could be opened (true also when there is no
operand and stdin is read), and the result of `ldns_zone_new_frm_fp_l`: the
zone, or a status other than `LDNS_STATUS_OK` with the line number. -/
def main (L : library) (clk : clock) (opts : List (Char × List Char)) (fopen_ok : Bool)
    (zone_read : Except (Nat × Nat) ldns_zone) : run_result :=
  match parse_options L opts with
  | .error r => r
  | .ok st =>
    if !fopen_ok then
      { status := .EXIT_FAILURE, err := st.err ++ [diag.unable_to_open], out := [], calls := [] }
    else
      match zone_read with
      | .error (s, line_nr) =>
        { status := .EXIT_FAILURE, err := st.err ++ [diag.zone_error s line_nr],
          out := [], calls := [] }
      | .ok z => process_zone L clk st z

/-- A library for the worked examples: every status is OK, canonicalisation
and sorting leave their argument as it is. -/
def example_library : library :=
  { ldns_output_format_set_type := fun _ _ => 0,
    ldns_output_format_clear_type := fun _ _ => 0,
    ldns_rr2canonical := fun r => r,
    ldns_zone_sort := fun z => z }

/-- An A record, for the worked examples. -/
def rr_A : ldns_rr := { rr_type := LDNS_RR_TYPE_A, serial := 0, rest := 1 }
/-- An MX record, for the worked examples. -/
def rr_MX : ldns_rr := { rr_type := LDNS_RR_TYPE_MX, serial := 0, rest := 2 }
/-- An RRSIG record, for the worked examples. -/
def rr_RRSIG : ldns_rr := { rr_type := LDNS_RR_TYPE_RRSIG, serial := 0, rest := 3 }
/-- A zone without SOA holding the given records. -/
def zone_of (rrs : List ldns_rr) : ldns_zone := { soa := none, rrs := rrs }

/-- The zone `[A, MX, RRSIG]` with a SOA, for the worked examples. -/
def example_zone : ldns_zone :=
  { soa := some { rr_type := LDNS_RR_TYPE_SOA, serial := 2024010100, rest := 0 },
    rrs := [rr_A, rr_MX, rr_RRSIG] }

/-- A clock for the worked examples: 1 January 2024, 00:00:00 UTC, counter 00. -/
def example_clock : clock := { unixtime := 1704067200, yyyymmdd := 20240101, counter := 0 }

/-- The variables of `main` after the single option `-z`. -/
def state_after_z : main_state := { main_init with canonicalize := true, sort := true }

end ReadZone

namespace Key2ds

/-! ## The program `ldns-key2ds` -/

/-- The hash selections of `ldns_hash` the program uses. -/
inductive ldns_hash where
  | LDNS_SHA1
  | LDNS_SHA256
  deriving DecidableEq, Repr

/-- The exit statuses of the program. -/
inductive exit_status where
  | EXIT_SUCCESS
  | EXIT_FAILURE
  deriving DecidableEq, Repr

/-- The key record read from the file, as far as the program looks at it:
the owner as `ldns_rdf2str` prints it, the algorithm field, and a number
standing for the rest. -/
structure ldns_rr where
  owner : List Char
  dnskey_algorithm : Nat
  rest : Nat
  deriving DecidableEq, Repr

/-- The library functions whose results the program depends on without their
code being part of it: the key tag and the DS record of a key (none for
NULL), the DS record being a number standing for its printed form. -/
structure library where
  ldns_calc_keytag : ldns_rr → Nat
  ldns_key_rr2ds : ldns_rr → ldns_hash → Option Nat

/-- The character of the decimal digit `d`. -/
def digit_char (d : Nat) : Char := Char.ofNat (48 + d)

/-- The conversion `%u` of `printf`: the decimal digits of `n`, most
significant first, without leading zeros (a single 0 for zero). The first
argument bounds the number of digits and is at least `n` in every use. -/
def utoa_fuel : Nat → Nat → List Char
  | 0, n => [digit_char (n % 10)]
  | fuel + 1, n =>
    if n < 10 then [digit_char n]
    else utoa_fuel fuel (n / 10) ++ [digit_char (n % 10)]

/-- The conversion `%u` of `printf`. -/
def utoa (n : Nat) : List Char := utoa_fuel n n

/-- The conversions `%03u` and `%05u` of `printf`: the digits of `n`, padded
on the left with zeros up to `width` characters; never cut. -/
def fmt_0u (width n : Nat) : List Char :=
  List.replicate (width - (utoa n).length) '0' ++ utoa n

/-- The function `strlen`. -/
def strlen (s : List Char) : Nat := s.length

/-- The function `snprintf(buf, size, ...)` for the text the format expands
to: at most `size - 1` characters are stored (and a NUL after them). -/
def snprintf (size : Nat) (text : List Char) : List Char := text.take (size - 1)

/-- The expansion of the format "K%s+%03u+%05u" that the two format strings
of the program share. -/
def format_base (owner : List Char) (alg keytag : Nat) : List Char :=
  'K' :: owner ++ '+' :: fmt_0u 3 alg ++ '+' :: fmt_0u 5 keytag

/-- Lines 100-101: the name of the DS file, `snprintf` of the format
"K%s+%03u+%05u.ds" with the size limit `strlen(owner) + 15` into a buffer of
`strlen(owner) + 16` bytes. -/
def dsname (owner : List Char) (alg keytag : Nat) : List Char :=
  snprintf (strlen owner + 15) (format_base owner alg keytag ++ ".ds".toList)

/-- Line 113: the line printed to stdout, the format "K%s+%03u+%05u" and a
newline. -/
def printed_label (owner : List Char) (alg keytag : Nat) : List Char :=
  format_base owner alg keytag ++ [Char.ofNat 10]

/-- The text `n` as `k` zero-padded decimal digits: the `k` low decimal
digits of `n`, most significant first (the file naming convention
`K<owner>+<alg 3-digit>+<keytag 5-digit>` is stated with it). -/
def zero_padded : Nat → Nat → List Char
  | 0, _ => []
  | k + 1, n => zero_padded k (n / 10) ++ [digit_char (n % 10)]

/-- What the program writes to stderr. -/
inductive diag where
  /-- The line "Error: Crypto library does not support SHA256 digests!",
  compiled in when `SHA256_DIGEST_LENGTH` is not defined. -/
  | sha256_unsupported
  /-- The text of `usage`. -/
  | usage
  /-- The line "Failed to open public key file ...: ...". -/
  | failed_to_open_key
  /-- The line "Could not read public key from file ...: ...". -/
  | could_not_read_key (status : Nat)
  /-- The line "Conversion to a DS RR failed". -/
  | conversion_failed
  /-- The line "Unable to open ...: ..." for the DS file. -/
  | unable_to_open (name : List Char)
  deriving DecidableEq, Repr

/-- What the program writes to stdout: the DS record or the label line. -/
inductive printed where
  | ds (d : Nat)
  | label (text : List Char)
  deriving DecidableEq, Repr

/-- A finished run: exit status, stderr, stdout, the files written (name and
DS record) and the calls of `ldns_key_rr2ds` made. -/
structure run_result where
  status : exit_status
  err : List diag
  out : List printed
  files : List (List Char × Nat)
  calls : List (ldns_rr × ldns_hash)
  deriving DecidableEq, Repr

/-- The variables the option loop of `main` sets, with its stderr output. -/
structure opt_state where
  h : ldns_hash
  nofile : Bool
  err : List diag
  deriving DecidableEq, Repr

/-- Lines 48-62: while there is an argument that starts with a dash, compare
it with "-1", "-2" and "-n" and go to the next one. Under "-2" the error line
is there only when `SHA256_DIGEST_LENGTH` is not defined (`sha256_defined`
false); the assignment `h = LDNS_SHA256` follows in both cases. Returns the
state and the arguments that are left. -/
def option_loop (sha256_defined : Bool) (st : opt_state) :
    List (List Char) → opt_state × List (List Char)
  | [] => (st, [])
  | arg :: more =>
    if arg.head? = some '-' then
      let st1 := if arg = "-1".toList then { st with h := ldns_hash.LDNS_SHA1 } else st
      let st2 :=
        if arg = "-2".toList then
          { st1 with
            err := if sha256_defined then st1.err else st1.err ++ [diag.sha256_unsupported],
            h := ldns_hash.LDNS_SHA256 }
        else st1
      let st3 := if arg = "-n".toList then { st2 with nofile := true } else st2
      option_loop sha256_defined st3 more
    else (st, arg :: more)

/-- A result of `ldns_rr_new_frm_fp` on the key file. -/
inductive read_result where
  | LDNS_STATUS_OK (k : ldns_rr)
  | LDNS_STATUS_SYNTAX_ORIGIN
  | LDNS_STATUS_SYNTAX_TTL
  | other (status : Nat)
  deriving DecidableEq, Repr

/-- Lines 77-80: read until the result is neither of the two directive
statuses. The list holds the results of the successive calls; the file being
finite, a call after the last listed one fails (status 0 of `other`). -/
def read_loop : List read_result → read_result
  | [] => read_result.other 0
  | read_result.LDNS_STATUS_SYNTAX_ORIGIN :: more => read_loop more
  | read_result.LDNS_STATUS_SYNTAX_TTL :: more => read_loop more
  | r :: _ => r

/-- A run that ends in `exit(EXIT_FAILURE)` with the given stderr. -/
def fail_with (err : List diag) (calls : List (ldns_rr × ldns_hash)) : run_result :=
  { status := .EXIT_FAILURE, err := err, out := [], files := [], calls := calls }

/-- The function `main` of `ldns-key2ds`. Its inputs: whether the crypto
library defines `SHA256_DIGEST_LENGTH`, the arguments after the program
name, whether the key file can be opened, the results of reading it, and
whether the DS file can be opened for writing. -/
def main (L : library) (sha256_defined : Bool) (argv : List (List Char))
    (fopen_key : Bool) (reads : List read_result) (fopen_ds : Bool) : run_result :=
  let init : opt_state := { h := ldns_hash.LDNS_SHA1, nofile := false, err := [] }
  let parsed := option_loop sha256_defined init argv
  let st := parsed.1
  if parsed.2.length ≠ 1 then fail_with (st.err ++ [diag.usage]) []
  else if !fopen_key then fail_with (st.err ++ [diag.failed_to_open_key]) []
  else
    match read_loop reads with
    | read_result.LDNS_STATUS_OK k =>
      let owner := k.owner
      let alg := k.dnskey_algorithm % 256
      match L.ldns_key_rr2ds k st.h with
      | none => fail_with (st.err ++ [diag.conversion_failed]) [(k, st.h)]
      | some ds =>
        let name := dsname owner alg (L.ldns_calc_keytag k % 65536)
        if st.nofile then
          { status := .EXIT_SUCCESS, err := st.err, out := [printed.ds ds], files := [],
            calls := [(k, st.h)] }
        else if !fopen_ds then
          fail_with (st.err ++ [diag.unable_to_open name]) [(k, st.h)]
        else
          { status := .EXIT_SUCCESS, err := st.err,
            out := [printed.label (printed_label owner alg (L.ldns_calc_keytag k % 65536))],
            files := [(name, ds)], calls := [(k, st.h)] }
    | read_result.other s => fail_with (st.err ++ [diag.could_not_read_key s]) []
    | _ => fail_with (st.err ++ [diag.could_not_read_key 0]) []

/-- A key for the worked examples. -/
def example_key : ldns_rr :=
  { owner := "example.com.".toList, dnskey_algorithm := 5, rest := 0 }

end Key2ds

/-! # Theorems -/

namespace ReadZone

theorem pop_nil : ldns_rr_list_pop_rr [] = none := rfl

theorem pop_append_singleton (l : List ldns_rr) (r : ldns_rr) :
    ldns_rr_list_pop_rr (l ++ [r]) = some (r, l) := by
  simp [ldns_rr_list_pop_rr]

theorem is_dnssec_type_iff (t : Nat) :
    is_dnssec_type t = true ↔
      (t = LDNS_RR_TYPE_RRSIG ∨ t = LDNS_RR_TYPE_NSEC ∨
        t = LDNS_RR_TYPE_NSEC3 ∨ t = LDNS_RR_TYPE_NSEC3PARAM) := by
  simp [is_dnssec_type, or_assoc]

/-- What the strip loop computes: the zone list ends empty and the kept
records are appended to the stripped list last record first. -/
theorem strip_loop_eq (l acc : List ldns_rr) :
    strip_loop l acc =
      ([], acc ++ (l.filter (fun r => !is_dnssec_type r.rr_type)).reverse) := by
  induction l using List.reverseRecOn generalizing acc with
  | nil =>
    rw [strip_loop]
    simp [pop_nil]
  | append_singleton l r ih =>
    rw [strip_loop]
    split
    · next h => simp [pop_append_singleton] at h
    · next cur rest h =>
      rw [pop_append_singleton] at h
      simp only [Option.some.injEq, Prod.mk.injEq] at h
      obtain ⟨h1, h2⟩ := h
      subst h1 h2
      simp only [ldns_rr_get_type]
      by_cases hd : is_dnssec_type r.rr_type = true
      · rw [if_pos ((is_dnssec_type_iff _).mp hd), ih]
        simp [List.filter_append, hd]
      · rw [if_neg (fun hh => hd ((is_dnssec_type_iff _).mpr hh)), ih]
        simp [List.filter_append, hd, ldns_rr_list_push_rr]

/-- What the only-dnssec loop computes. -/
theorem only_dnssec_loop_eq (l acc : List ldns_rr) :
    only_dnssec_loop l acc =
      ([], acc ++ (l.filter (fun r => is_dnssec_type r.rr_type)).reverse) := by
  induction l using List.reverseRecOn generalizing acc with
  | nil =>
    rw [only_dnssec_loop]
    simp [pop_nil]
  | append_singleton l r ih =>
    rw [only_dnssec_loop]
    split
    · next h => simp [pop_append_singleton] at h
    · next cur rest h =>
      rw [pop_append_singleton] at h
      simp only [Option.some.injEq, Prod.mk.injEq] at h
      obtain ⟨h1, h2⟩ := h
      subst h1 h2
      simp only [ldns_rr_get_type]
      by_cases hd : is_dnssec_type r.rr_type = true
      · rw [if_pos ((is_dnssec_type_iff _).mp hd), ih]
        simp [List.filter_append, hd, ldns_rr_list_push_rr]
      · rw [if_neg (fun hh => hd ((is_dnssec_type_iff _).mpr hh)), ih]
        simp [List.filter_append, hd]

theorem strip_pass_rrs (z : ldns_zone) :
    (strip_pass z).rrs = (z.rrs.filter (fun r => !is_dnssec_type r.rr_type)).reverse := by
  simp [strip_pass, strip_loop_eq]

theorem only_dnssec_pass_rrs (z : ldns_zone) :
    (only_dnssec_pass z).rrs = (z.rrs.filter (fun r => is_dnssec_type r.rr_type)).reverse := by
  simp [only_dnssec_pass, only_dnssec_loop_eq]

/-- C1 (as stated, refuted): on the zone list [A, MX, RRSIG] the strip pass
does not give [A, MX], the non-DNSSEC records in their original order; it
gives [MX, A]. -/
theorem c1_strip_order_counterexample :
    (strip_pass (zone_of [rr_A, rr_MX, rr_RRSIG])).rrs = [rr_MX, rr_A] ∧
    ¬ ((strip_pass (zone_of [rr_A, rr_MX, rr_RRSIG])).rrs =
        (zone_of [rr_A, rr_MX, rr_RRSIG]).rrs.filter
          (fun r => !is_dnssec_type r.rr_type)) := by
  rw [strip_pass_rrs]
  decide

/-- C1 (amended): for every zone the strip pass outputs exactly the records
whose type is not RRSIG, NSEC, NSEC3 or NSEC3PARAM, and the only-dnssec pass
exactly the records with one of these types, each in the reverse of their
order in the input; neither pass touches the SOA. On [A, MX, RRSIG] strip
gives [MX, A] and only-dnssec gives [RRSIG]. -/
theorem c1_passes_filter_reversed (z : ldns_zone) :
    (strip_pass z).rrs =
      (z.rrs.filter (fun r =>
        !(r.rr_type == LDNS_RR_TYPE_RRSIG || r.rr_type == LDNS_RR_TYPE_NSEC ||
          r.rr_type == LDNS_RR_TYPE_NSEC3 || r.rr_type == LDNS_RR_TYPE_NSEC3PARAM))).reverse ∧
    (only_dnssec_pass z).rrs =
      (z.rrs.filter (fun r =>
        (r.rr_type == LDNS_RR_TYPE_RRSIG || r.rr_type == LDNS_RR_TYPE_NSEC ||
          r.rr_type == LDNS_RR_TYPE_NSEC3 || r.rr_type == LDNS_RR_TYPE_NSEC3PARAM))).reverse ∧
    (strip_pass z).soa = z.soa ∧ (only_dnssec_pass z).soa = z.soa ∧
    (strip_pass (zone_of [rr_A, rr_MX, rr_RRSIG])).rrs = [rr_MX, rr_A] ∧
    (only_dnssec_pass (zone_of [rr_A, rr_MX, rr_RRSIG])).rrs = [rr_RRSIG] := by
  refine ⟨?_, ?_, rfl, rfl, ?_, ?_⟩
  · rw [strip_pass_rrs]; rfl
  · rw [only_dnssec_pass_rrs]; rfl
  · rw [strip_pass_rrs]; decide
  · rw [only_dnssec_pass_rrs]; decide

/-- C2: a record counts as DNSSEC data exactly when its type is RRSIG, NSEC,
NSEC3 or NSEC3PARAM; the strip pass keeps a record of the zone iff it is not
DNSSEC data and the only-dnssec pass keeps it iff it is; as multisets the two
outputs add up to the input, so every record of the input is in exactly one
of the outputs and nothing is added or duplicated. -/
theorem c2_filters_partition (z : ldns_zone) :
    (∀ t : Nat, is_dnssec_type t = true ↔
      t ∈ [LDNS_RR_TYPE_RRSIG, LDNS_RR_TYPE_NSEC, LDNS_RR_TYPE_NSEC3,
            LDNS_RR_TYPE_NSEC3PARAM]) ∧
    (∀ r, r ∈ (strip_pass z).rrs ↔ (r ∈ z.rrs ∧ is_dnssec_type r.rr_type = false)) ∧
    (∀ r, r ∈ (only_dnssec_pass z).rrs ↔ (r ∈ z.rrs ∧ is_dnssec_type r.rr_type = true)) ∧
    (((strip_pass z).rrs : Multiset ldns_rr) + ((only_dnssec_pass z).rrs : Multiset ldns_rr)
      = (z.rrs : Multiset ldns_rr)) ∧
    (∀ r, (strip_pass z).rrs.count r + (only_dnssec_pass z).rrs.count r = z.rrs.count r) ∧
    (∀ r, r ∈ z.rrs →
      ((r ∈ (strip_pass z).rrs ∧ r ∉ (only_dnssec_pass z).rrs) ∨
       (r ∉ (strip_pass z).rrs ∧ r ∈ (only_dnssec_pass z).rrs))) := by
  have hperm : ((strip_pass z).rrs ++ (only_dnssec_pass z).rrs).Perm z.rrs := by
    rw [strip_pass_rrs, only_dnssec_pass_rrs]
    refine ((List.reverse_perm _).append (List.reverse_perm _)).trans ?_
    refine List.perm_append_comm.trans ?_
    exact List.filter_append_perm _ _
  have hs : ∀ r, r ∈ (strip_pass z).rrs ↔ (r ∈ z.rrs ∧ is_dnssec_type r.rr_type = false) := by
    intro r
    rw [strip_pass_rrs]
    simp
  have ho : ∀ r, r ∈ (only_dnssec_pass z).rrs ↔ (r ∈ z.rrs ∧ is_dnssec_type r.rr_type = true) := by
    intro r
    rw [only_dnssec_pass_rrs]
    simp
  refine ⟨?_, hs, ho, ?_, ?_, ?_⟩
  · intro t
    rw [is_dnssec_type_iff]
    simp
  · rw [Multiset.coe_add]
    exact Multiset.coe_eq_coe.mpr hperm
  · intro r
    rw [← List.count_append]
    exact hperm.count_eq r
  · intro r hr
    rw [hs, ho]
    cases hd : is_dnssec_type r.rr_type <;> simp [hr]

/-- C3: with strip and only-dnssec both enabled the record list left by the
two passes is empty, whatever the zone holds: the only-dnssec pass applied to
the output of the strip pass gives the empty list, it is still empty after
the canonicalisation stage, and when the zone is not sorted the list printed
at the end of the run is the empty list. -/
theorem c3_both_filters_empty (z : ldns_zone) :
    (only_dnssec_pass (strip_pass z)).rrs = [] ∧
    (filter_passes true true z).rrs = [] ∧
    (∀ (L : library) (canonicalize : Bool),
      (canonicalize_stage L canonicalize (filter_passes true true z)).1.rrs = []) ∧
    (∀ (L : library) (clk : clock) (st : main_state),
      (process_zone L clk { st with strip := true, only_dnssec := true, sort := false } z).out.getLast?
        = some (printed.rr_list [])) := by
  have h : (only_dnssec_pass (strip_pass z)).rrs = [] := by
    rw [only_dnssec_pass_rrs, strip_pass_rrs]
    simp [List.filter_reverse, List.filter_filter]
  have h2 : (filter_passes true true z).rrs = [] := by simpa [filter_passes] using h
  have h3 : ∀ (L : library) (canonicalize : Bool),
      (canonicalize_stage L canonicalize (filter_passes true true z)).1.rrs = [] := by
    intro L canonicalize
    cases canonicalize <;> simp [canonicalize_stage, h2]
  refine ⟨h, h2, h3, ?_⟩
  intro L clk st
  have h4 : ∀ (z1 : ldns_zone) (st1 : main_state), (soa_stage clk st1 z1).1.rrs = z1.rrs := by
    intro z1 st1
    unfold soa_stage
    split <;> rfl
  simp [process_zone, sort_stage, h4, h3]

/-- C5 (as stated, refuted): on the zone list [A, MX] stripping twice gives
[A, MX] while stripping once gives [MX, A]. -/
theorem c5_strip_twice_counterexample :
    (strip_pass (strip_pass (zone_of [rr_A, rr_MX]))).rrs = [rr_A, rr_MX] ∧
    (strip_pass (zone_of [rr_A, rr_MX])).rrs = [rr_MX, rr_A] ∧
    ¬ ((strip_pass (strip_pass (zone_of [rr_A, rr_MX]))).rrs =
        (strip_pass (zone_of [rr_A, rr_MX])).rrs) := by
  rw [strip_pass_rrs, strip_pass_rrs]
  decide

/-- C5 (amended): applying the strip pass to its own output keeps every
record and reverses their order: the result is the reverse of the output of
one pass, hence has the same records with the same multiplicities. -/
theorem c5_strip_twice_reverses (z : ldns_zone) :
    (strip_pass (strip_pass z)).rrs = (strip_pass z).rrs.reverse ∧
    ((strip_pass (strip_pass z)).rrs).Perm (strip_pass z).rrs := by
  have h : (strip_pass (strip_pass z)).rrs = (strip_pass z).rrs.reverse := by
    rw [strip_pass_rrs, strip_pass_rrs]
    simp [List.filter_reverse, List.filter_filter]
  exact ⟨h, h ▸ List.reverse_perm _⟩

theorem option_case_flags {L : library} {st st1 : main_state} {c : Char} {optarg : List Char}
    (h : option_case L st c optarg = .ok st1) :
    st1.sort = (st.sort || c == 'z') ∧
    st1.canonicalize = (st.canonicalize || c == 'c' || c == 'z') := by
  unfold option_case at h
  by_cases h0 : c = 'b'
  · rw [if_pos h0] at h
    simp only [Except.ok.injEq] at h
    subst h h0
    simp [case_b]
  rw [if_neg h0] at h
  by_cases h1 : c = '0'
  · rw [if_pos h1] at h
    simp only [Except.ok.injEq] at h
    subst h h1
    simp [case_0]
  rw [if_neg h1] at h
  by_cases h2 : c = 'c'
  · rw [if_pos h2] at h
    simp only [Except.ok.injEq] at h
    subst h h2
    simp [case_c]
  rw [if_neg h2] at h
  by_cases h3 : c = 'd'
  · rw [if_pos h3] at h
    simp only [Except.ok.injEq] at h
    subst h h3
    simp [case_d]
    split <;> simp
  rw [if_neg h3] at h
  by_cases h4 : c = 'h'
  · rw [if_pos h4] at h
    simp at h
  rw [if_neg h4] at h
  by_cases h5 : c = 'n'
  · rw [if_pos h5] at h
    simp only [Except.ok.injEq] at h
    subst h h5
    simp [case_n]
  rw [if_neg h5] at h
  by_cases h6 : c = 'p'
  · rw [if_pos h6] at h
    simp only [Except.ok.injEq] at h
    subst h h6
    simp [case_p]
  rw [if_neg h6] at h
  by_cases h7 : c = 's'
  · rw [if_pos h7] at h
    simp only [Except.ok.injEq] at h
    subst h h7
    simp [case_s]
    split <;> simp
  rw [if_neg h7] at h
  by_cases h8 : c = 'u'
  · rw [if_pos h8] at h
    subst h8
    unfold case_u at h
    split at h <;> simp only [Except.ok.injEq, reduceCtorEq] at h
    all_goals (subst h; simp)
  rw [if_neg h8] at h
  by_cases h9 : c = 'U'
  · rw [if_pos h9] at h
    subst h9
    unfold case_U at h
    split at h <;> simp only [Except.ok.injEq, reduceCtorEq] at h
    all_goals (subst h; simp)
  rw [if_neg h9] at h
  by_cases h10 : c = 'v'
  · rw [if_pos h10] at h
    simp at h
  rw [if_neg h10] at h
  by_cases h11 : c = 'z'
  · rw [if_pos h11] at h
    simp only [Except.ok.injEq] at h
    subst h h11
    simp [case_z]
  rw [if_neg h11] at h
  by_cases h12 : c = 'S'
  · rw [if_pos h12] at h
    subst h12
    unfold case_S at h
    split at h <;> simp only [Except.ok.injEq, reduceCtorEq] at h
    all_goals (subst h; simp)
  rw [if_neg h12] at h
  simp only [Except.ok.injEq] at h
  subst h
  have e2 : (c == 'c') = false := beq_eq_false_iff_ne.mpr h2
  have e11 : (c == 'z') = false := beq_eq_false_iff_ne.mpr h11
  rw [e2, e11]
  simp

theorem option_loop_flags {L : library} (opts : List (Char × List Char)) :
    ∀ {st st1 : main_state}, option_loop L st opts = .ok st1 →
      (st1.sort = true ↔ (st.sort = true ∨ ∃ o ∈ opts, o.1 = 'z')) ∧
      ((st.sort = true → st.canonicalize = true) →
        (st1.sort = true → st1.canonicalize = true)) := by
  induction opts with
  | nil =>
    intro st st1 h
    simp only [option_loop, Except.ok.injEq] at h
    subst h
    simp
  | cons o more ih =>
    intro st st1 h
    obtain ⟨c, optarg⟩ := o
    simp only [option_loop] at h
    cases hc : option_case L st c optarg with
    | error r => simp [hc] at h
    | ok st2 =>
      rw [hc] at h
      obtain ⟨h1, h2⟩ := ih h
      obtain ⟨f1, f2⟩ := option_case_flags hc
      constructor
      · rw [h1, f1]
        simp only [Bool.or_eq_true, beq_iff_eq, List.mem_cons, exists_eq_or_imp]
        tauto
      · intro hinv
        apply h2
        rw [f1, f2]
        simp only [Bool.or_eq_true, beq_iff_eq]
        tauto

theorem serial_guard_keeps {old requested : Nat}
    (h : serial_arithmetic_gt requested old = true) : serial_guard old requested = requested := by
  simp [serial_guard, h]

/-- C4 (the code at the failing input): after the options `-d -S 1` both
`strip` and `only_dnssec` are set and nothing has been written to stderr;
the run prints the SOA and an empty record list, exits with success, and its
stderr is empty. -/
theorem c4_d_then_S_is_silent (L : library) (clk : clock) :
    (∃ st, parse_options L [('d', []), ('S', "1".toList)] = .ok st ∧
        st.strip = true ∧ st.only_dnssec = true ∧ st.err = []) ∧
    (main L clk [('d', []), ('S', "1".toList)] true (.ok example_zone)).err = [] ∧
    (main L clk [('d', []), ('S', "1".toList)] true (.ok example_zone)).status
      = exit_status.EXIT_SUCCESS ∧
    (∃ st, parse_options L [('S', "1".toList), ('d', [])] = .ok st ∧
        st.err = [diag.warning_strip_both]) := by
  refine ⟨⟨_, rfl, rfl, rfl, rfl⟩, ?_, ?_, ⟨_, rfl, rfl⟩⟩
  · rfl
  · rfl

/-- C7 (the code at the failing inputs): the argument "unixtime1" of `-S` is
accepted and selects the unixtime strategy, "+abc" is accepted as the offset
0, and the empty string is accepted as the explicit value 0; with each of
them the option loop goes on without the message about what `-S` expects.
Arguments of the documented forms are handled as documented ("12" is the
explicit value 12, "-12" the offset -12, "yyyymmddXX" the datecounter,
"UnixTime" the unixtime strategy), and "12abc" is refused. -/
theorem c7_S_accepts_malformed (L : library) :
    case_S_select "unixtime1".toList = some (soa_serial_func.unixtime, none) ∧
    case_S_select "+abc".toList = some (soa_serial_func.increment_by, some 0) ∧
    case_S_select [] = some (soa_serial_func.identity, some 0) ∧
    (∃ st, parse_options L [('S', "unixtime1".toList)] = .ok st ∧
      st.soa_serial_increment_func = some soa_serial_func.unixtime ∧ st.err = []) ∧
    (∃ st, parse_options L [('S', "+abc".toList)] = .ok st ∧
      st.soa_serial_increment_func = some soa_serial_func.increment_by ∧
      st.soa_serial_increment_func_data = 0 ∧ st.err = []) ∧
    (∃ st, parse_options L [('S', [])] = .ok st ∧
      st.soa_serial_increment_func = some soa_serial_func.identity ∧
      st.soa_serial_increment_func_data = 0 ∧ st.err = []) ∧
    case_S_select "12".toList = some (soa_serial_func.identity, some 12) ∧
    case_S_select "-12".toList = some (soa_serial_func.increment_by, some (-12)) ∧
    case_S_select "yyyymmddXX".toList = some (soa_serial_func.datecounter, none) ∧
    case_S_select "UnixTime".toList = some (soa_serial_func.unixtime, none) ∧
    case_S_select "12abc".toList = none ∧
    parse_options L [('S', "12abc".toList)] =
      .error (exit_with exit_status.EXIT_FAILURE [diag.S_expects_number] []) := by
  refine ⟨by decide, by decide, by decide, ⟨_, rfl, rfl, rfl⟩, ⟨_, rfl, rfl, rfl, rfl⟩,
    ⟨_, rfl, rfl, rfl, rfl⟩, by decide, by decide, by decide, by decide, by decide, rfl⟩

/-- C10: for every sequence of options that the option loop gets through,
sort is set only if canonicalize is set, and sort is set exactly when `-z`
was among the options; when sort is set, the library calls of the run are
the canonicalisation of the SOA and of every record of the (filtered) zone
followed by the one call of `ldns_zone_sort`, whose argument is the
canonicalised zone; when it is not set, `ldns_zone_sort` is not called. -/
theorem c10_sort_implies_canonicalize (L : library) (clk : clock)
    (opts : List (Char × List Char)) (st : main_state) (z : ldns_zone)
    (h : parse_options L opts = .ok st) :
    main L clk opts true (.ok z) = process_zone L clk st z ∧
    (st.sort = true → st.canonicalize = true) ∧
    (st.sort = true ↔ ∃ o ∈ opts, o.1 = 'z') ∧
    (st.sort = true →
      (process_zone L clk st z).calls =
        (lib_call.rr2canonical (filter_passes st.strip st.only_dnssec z).soa ::
          (filter_passes st.strip st.only_dnssec z).rrs.map
            (fun r => lib_call.rr2canonical (some r))) ++ [lib_call.zone_sort] ∧
      (sort_stage L st.sort
          (canonicalize_stage L st.canonicalize (filter_passes st.strip st.only_dnssec z)).1).1 =
        L.ldns_zone_sort
          { soa := (filter_passes st.strip st.only_dnssec z).soa.map L.ldns_rr2canonical,
            rrs := (filter_passes st.strip st.only_dnssec z).rrs.map L.ldns_rr2canonical }) ∧
    (st.sort = false → lib_call.zone_sort ∉ (process_zone L clk st z).calls) := by
  obtain ⟨h1, h2⟩ := option_loop_flags opts h
  have hinv : st.sort = true → st.canonicalize = true := h2 (by simp [main_init])
  refine ⟨?_, hinv, ?_, ?_, ?_⟩
  · simp [main, h]
  · rw [h1]
    simp [main_init]
  · intro hs
    have hc := hinv hs
    simp [process_zone, canonicalize_stage, sort_stage, hs, hc]
  · intro hs
    simp only [process_zone, canonicalize_stage, sort_stage, hs]
    cases st.canonicalize <;> simp

/-- C10, at the single option `-z` on the example zone. -/
theorem c10_sort_implies_canonicalize_witness :
    parse_options example_library [('z', [])] = .ok state_after_z ∧
    (state_after_z.sort = true → state_after_z.canonicalize = true) :=
  ⟨rfl,
   (c10_sort_implies_canonicalize example_library example_clock [('z', [])] state_after_z
      example_zone rfl).2.1⟩

end ReadZone

namespace Key2ds

theorem zero_padded_length (k n : Nat) : (zero_padded k n).length = k := by
  induction k generalizing n with
  | zero => rfl
  | succ k ih => simp [zero_padded, ih]

theorem zero_padded_zero (k : Nat) : zero_padded k 0 = List.replicate k '0' := by
  induction k with
  | zero => rfl
  | succ k ih =>
    rw [zero_padded, Nat.zero_div, ih, List.replicate_succ', Nat.zero_mod]
    rfl

theorem utoa_fuel_small (f n : Nat) (hf : n ≤ f) (hn : n < 10) :
    utoa_fuel f n = [digit_char n] := by
  cases f with
  | zero =>
    have h0 : n = 0 := Nat.le_zero.mp hf
    subst h0
    rfl
  | succ f => simp [utoa_fuel, hn]

/-- The padded `%u` conversion gives the `k + 1` low decimal digits when the
number has at most `k + 1` digits. -/
theorem pad_utoa_fuel (k : Nat) : ∀ (n f : Nat), n ≤ f → n < 10 ^ (k + 1) →
    List.replicate (k + 1 - (utoa_fuel f n).length) '0' ++ utoa_fuel f n
      = zero_padded (k + 1) n := by
  induction k with
  | zero =>
    intro n f hf hn
    have hn10 : n < 10 := by simpa using hn
    rw [utoa_fuel_small f n hf hn10]
    simp [zero_padded, Nat.mod_eq_of_lt hn10]
  | succ k ih =>
    intro n f hf hn
    by_cases hn10 : n < 10
    · rw [utoa_fuel_small f n hf hn10, zero_padded, Nat.div_eq_of_lt hn10, zero_padded_zero,
        Nat.mod_eq_of_lt hn10]
      simp
    · cases f with
      | zero => omega
      | succ f =>
        have hdiv : n / 10 < 10 ^ (k + 1) := by
          rw [Nat.div_lt_iff_lt_mul (by norm_num)]
          rw [pow_succ] at hn
          exact hn
        have hle : n / 10 ≤ f := by omega
        have hlen : (utoa_fuel f (n / 10)).length ≤ k + 1 := by
          have := congrArg List.length (ih (n / 10) f hle hdiv)
          rw [List.length_append, zero_padded_length] at this
          omega
        have e := ih (n / 10) f hle hdiv
        rw [zero_padded, ← e]
        simp only [utoa_fuel, if_neg hn10, List.length_append, List.length_singleton,
          List.append_assoc]
        congr 2
        omega

theorem fmt_0u_eq (k n : Nat) (hn : n < 10 ^ (k + 1)) :
    fmt_0u (k + 1) n = zero_padded (k + 1) n :=
  pad_utoa_fuel k n n (Nat.le_refl n) hn

theorem format_base_eq (owner : List Char) (alg keytag : Nat) (ha : alg < 256)
    (hk : keytag < 65536) :
    format_base owner alg keytag =
      'K' :: owner ++ '+' :: zero_padded 3 alg ++ '+' :: zero_padded 5 keytag := by
  rw [format_base, fmt_0u_eq 2 alg (by omega), fmt_0u_eq 4 keytag (by omega)]

/-- C8: for every owner string, algorithm number below 256 and key tag below
65536, the DS file name is the whole text `K<owner>+<alg>+<keytag>.ds` with
the algorithm as 3 and the key tag as 5 zero-padded decimal digits:
`snprintf` cuts nothing, the name with its NUL fits the buffer of
`strlen(owner) + 16` bytes, and the name is the label line printed to stdout
with ".ds" in the place of the newline. -/
theorem c8_dsname_exact (owner : List Char) (alg keytag : Nat) (ha : alg < 256)
    (hk : keytag < 65536) :
    dsname owner alg keytag =
      'K' :: owner ++ '+' :: zero_padded 3 alg ++ '+' :: zero_padded 5 keytag ++ ".ds".toList ∧
    dsname owner alg keytag = format_base owner alg keytag ++ ".ds".toList ∧
    (dsname owner alg keytag).length + 1 ≤ strlen owner + 16 ∧
    printed_label owner alg keytag =
      'K' :: owner ++ '+' :: zero_padded 3 alg ++ '+' :: zero_padded 5 keytag ++ [Char.ofNat 10] ∧
    dsname owner alg keytag = (printed_label owner alg keytag).dropLast ++ ".ds".toList := by
  have hb := format_base_eq owner alg keytag ha hk
  have hlen : (format_base owner alg keytag ++ ".ds".toList).length = strlen owner + 14 := by
    rw [hb]
    simp [zero_padded_length, strlen]
  have hd : dsname owner alg keytag = format_base owner alg keytag ++ ".ds".toList := by
    rw [dsname, snprintf]
    apply List.take_of_length_le
    rw [hlen]
    omega
  refine ⟨?_, hd, ?_, ?_, ?_⟩
  · rw [hd, hb]
  · rw [hd, hlen]
    omega
  · rw [printed_label, hb]
  · rw [hd, printed_label, List.dropLast_concat]

/-- C8, for the owner "example.com.", algorithm 5 and key tag 12345. -/
theorem c8_dsname_exact_witness :
    (5 : Nat) < 256 ∧ (12345 : Nat) < 65536 ∧
    dsname "example.com.".toList 5 12345 =
      'K' :: "example.com.".toList ++ '+' :: zero_padded 3 5 ++ '+' :: zero_padded 5 12345
        ++ ".ds".toList :=
  ⟨by decide, by decide,
   (c8_dsname_exact "example.com.".toList 5 12345 (by decide) (by decide)).1⟩

/-- C9 (the code at the failing input): built without `SHA256_DIGEST_LENGTH`
and run with the arguments `-2 Kexample.key`, the program writes the error
line about SHA256 and then goes on: `ldns_key_rr2ds` is called with the
SHA-256 selection; the exit status is success exactly when that call
returns a DS record, which is then written to the DS file. -/
theorem c9_sha256_missing_goes_on (L : library) :
    (main L false ["-2".toList, "Kexample.key".toList] true
        [read_result.LDNS_STATUS_OK example_key] true).calls
      = [(example_key, ldns_hash.LDNS_SHA256)] ∧
    (main L false ["-2".toList, "Kexample.key".toList] true
        [read_result.LDNS_STATUS_OK example_key] true).err.head? = some diag.sha256_unsupported ∧
    (main L false ["-2".toList, "Kexample.key".toList] true
        [read_result.LDNS_STATUS_OK example_key] true).status
      = (if (L.ldns_key_rr2ds example_key ldns_hash.LDNS_SHA256).isSome
          then exit_status.EXIT_SUCCESS else exit_status.EXIT_FAILURE) ∧
    (main L false ["-2".toList, "Kexample.key".toList] true
        [read_result.LDNS_STATUS_OK example_key] true).files
      = (match L.ldns_key_rr2ds example_key ldns_hash.LDNS_SHA256 with
          | some ds =>
            [(dsname example_key.owner 5 (L.ldns_calc_keytag example_key % 65536), ds)]
          | none => []) := by
  have hp : option_loop false { h := ldns_hash.LDNS_SHA1, nofile := false, err := [] }
      ["-2".toList, "Kexample.key".toList] =
      ({ h := ldns_hash.LDNS_SHA256, nofile := false, err := [diag.sha256_unsupported] },
        ["Kexample.key".toList]) := by decide
  simp only [main, hp, read_loop]
  cases hds : L.ldns_key_rr2ds example_key ldns_hash.LDNS_SHA256 with
  | none => simp [fail_with]
  | some ds => simp [example_key]

end Key2ds
